import Mathlib

/-!
Verification development for the EmailBot repository.

The definitions below are shallow embeddings of the Python sources:
src/email_client.py (incremental IMAP fetch, retry loop, body decoding),
src/parser.py (heuristic extraction engine), and
src/telegram_bot.py (duplicate-suppressing sender with a bounded ledger).
Text is modelled as `List Char`, byte strings as `List Nat`, and wall-clock
time as `Nat` minutes.  The IMAP server itself is an external collaborator;
where its behaviour is needed it is modelled from the spec (day-granular
search), and those definitions say so in their doc comments.
-/

/-! ## Basic text utilities (Python `str` semantics) -/

/-- Python `str.isspace` on the ASCII whitespace repertoire used by the
program: space, tab, newline, carriage return, vertical tab, form feed. -/
def pyIsSpace (c : Char) : Bool :=
  c = ' ' || c = '\t' || c = '\n' || c = '\r' || c = Char.ofNat 11 || c = Char.ofNat 12

/-- Python `str.lower` restricted to the alphabets the program processes:
ASCII A-Z and Cyrillic А-Я plus Ё. -/
def pyLower (c : Char) : Char :=
  let n := c.toNat
  if 65 ≤ n && n ≤ 90 then Char.ofNat (n + 32)
  else if 0x410 ≤ n && n ≤ 0x42F then Char.ofNat (n + 0x20)
  else if n = 0x401 then Char.ofNat 0x451
  else c

def pyLowerList (s : List Char) : List Char := s.map pyLower

/-- Python `str.strip()` (no argument): drop whitespace from both ends. -/
def pyStrip (s : List Char) : List Char :=
  ((s.dropWhile pyIsSpace).reverse.dropWhile pyIsSpace).reverse

/-- Does `hay` start with `needle`? -/
def startsWithChars : List Char → List Char → Bool
  | [], _ => true
  | _ :: _, [] => false
  | a :: as, b :: bs => a = b && startsWithChars as bs

/-- Python's `needle in hay` substring test. -/
def containsSub (needle : List Char) : List Char → Bool
  | [] => startsWithChars needle []
  | c :: rest => startsWithChars needle (c :: rest) || containsSub needle rest

/-- Python truthiness of an optional string: `None` and `""` are falsy. -/
def pyTruthy : Option (List Char) → Bool
  | none => false
  | some s => !s.isEmpty

/-- Python slicing `l[-n:]`: the last `n` elements. -/
def lastN (n : Nat) (l : List α) : List α := l.drop (l.length - n)

/-! ## A small regex engine

The extraction engine of src/parser.py works by `re.search` /
`re.sub` with `re.IGNORECASE`.  Every quantifier occurring in the
program's patterns quantifies a single character class, so the engine
below supports exactly: single-character classes, greedy and lazy
bounded repetition of a class, sequencing, ordered alternation, the
end-of-string anchor, and one capturing group.  Backtracking follows
Python's preference order: alternation tries the left branch first,
lazy repetition tries the shortest count first, greedy the longest. -/

inductive RE where
  | eps
  | cls (p : Char → Bool)
  /-- `rep greedy p lo hi` is `p{lo,hi}` (`hi = none` means unbounded);
  `greedy = false` gives the lazy variant. -/
  | rep (greedy : Bool) (p : Char → Bool) (lo : Nat) (hi : Option Nat)
  | seq (a b : RE)
  | alt (a b : RE)
  /-- `$` anchor: end of string, or just before a trailing newline
  (Python semantics without `re.MULTILINE`). -/
  | eos
  | grp (r : RE)

/-- Try `f` on each candidate in order, returning the first success. -/
def firstSome (f : Nat → Option α) : List Nat → Option α
  | [] => none
  | n :: ns =>
    match f n with
    | some r => some r
    | none => firstSome f ns

/-- Continuation-passing matcher.  `cap` is the text captured by the
(unique) group so far; the continuation receives the remaining input. -/
def reMatch : RE → List Char → Option (List Char) →
    (List Char → Option (List Char) → Option α) → Option α
  | .eps, s, cap, k => k s cap
  | .cls p, s, cap, k =>
    match s with
    | [] => none
    | c :: rest => if p c then k rest cap else none
  | .rep greedy p lo hi, s, cap, k =>
    let maxRun := (s.takeWhile p).length
    let upper := match hi with | none => maxRun | some h => min h maxRun
    if lo > upper then none
    else
      let counts := List.range' lo (upper + 1 - lo)
      let counts := if greedy then counts.reverse else counts
      firstSome (fun n => k (s.drop n) cap) counts
  | .seq a b, s, cap, k => reMatch a s cap (fun s1 c1 => reMatch b s1 c1 k)
  | .alt a b, s, cap, k =>
    match reMatch a s cap k with
    | some r => some r
    | none => reMatch b s cap k
  | .eos, s, cap, k =>
    if s = [] then k s cap else if s = ['\n'] then k s cap else none
  | .grp r, s, cap, k =>
    reMatch r s cap (fun s2 _ => k s2 (some (s.take (s.length - s2.length))))

/-- Match `r` at the start of `s`, returning the captured group. -/
def reSearchAt (r : RE) (s : List Char) : Option (List Char) :=
  reMatch r s none (fun _ cap => some (cap.getD []))

/-- Python `re.search(r, s).group(1)`: leftmost match wins. -/
def reSearch (r : RE) : List Char → Option (List Char)
  | [] => reSearchAt r []
  | c :: rest =>
    match reSearchAt r (c :: rest) with
    | some g => some g
    | none => reSearch r rest

/-- Match `r` at the start of `s`, returning the remaining input after
the match the engine prefers. -/
def reConsume (r : RE) (s : List Char) : Option (List Char) :=
  reMatch r s none (fun rest _ => some rest)

/-- Worker for `reSubAll`; the fuel is the input length (every step
either consumes the matched span or advances one character). -/
def reSubGo (r : RE) (repl : List Char) : Nat → List Char → List Char
  | 0, s => s
  | _ + 1, [] => []
  | fuel + 1, c :: rest =>
    match reConsume r (c :: rest) with
    | some remaining =>
      if remaining.length < rest.length + 1 then repl ++ reSubGo r repl fuel remaining
      else c :: reSubGo r repl fuel rest
    | none => c :: reSubGo r repl fuel rest

/-- Python `re.sub(r, repl, s)` for the non-nullable patterns the
program uses. -/
def reSubAll (r : RE) (repl : List Char) (s : List Char) : List Char :=
  reSubGo r repl s.length s

/-- Case-insensitive single-character class (`re.IGNORECASE`). -/
def ciChar (c : Char) : Char → Bool := fun x => pyLower x = pyLower c

/-- Case-insensitive literal, one `cls` per character. -/
def reLit (s : List Char) : RE := (s.map (fun c => RE.cls (ciChar c))).foldr RE.seq RE.eps

def reCat (rs : List RE) : RE := rs.foldr RE.seq RE.eps

/-! ## Character classes used by src/parser.py patterns -/

/-- `\s` (whitespace class). -/
def clsWs : Char → Bool := pyIsSpace

/-- `\w` on the alphabets the program processes (ASCII alphanumerics,
underscore, Cyrillic а-я / А-Я / ёЁ). -/
def clsWord (c : Char) : Bool :=
  c.isAlphanum || c = '_' || (0x410 ≤ c.toNat && c.toNat ≤ 0x44F) ||
    c.toNat = 0x401 || c.toNat = 0x451

/-- `\d`. -/
def clsDigit (c : Char) : Bool := c.isDigit

/-- The class `[А-Яа-я\w\s]` used in the operator patterns. -/
def clsOpName (c : Char) : Bool :=
  (0x410 ≤ c.toNat && c.toNat ≤ 0x44F) || clsWord c || pyIsSpace c

/-- The class `[:\s]` used in the time patterns. -/
def clsColonWs (c : Char) : Bool := c = ':' || pyIsSpace c

def wsPlus : RE := RE.rep true clsWs 1 (none)
def wsStar : RE := RE.rep true clsWs 0 (none)
def colonWsStar : RE := RE.rep true clsColonWs 0 (none)
/-- `\*?` -/
def starQ : RE := RE.rep true (fun c => c = '*') 0 (some 1)
def digPlus : RE := RE.rep true clsDigit 1 (none)
/-- `[^.]*` -/
def notDotStar : RE := RE.rep true (fun c => !(c = '.')) 0 (none)

/-- The date-time shape `\d{1,2}\.\d{1,2}\.\d{4}\s+\d{1,2}:\d{2}` shared
by the start/end time patterns. -/
def dateRe : RE := reCat [
  RE.rep true clsDigit 1 (some 2), RE.cls (fun c => c = '.'),
  RE.rep true clsDigit 1 (some 2), RE.cls (fun c => c = '.'),
  RE.rep true clsDigit 4 (some 4),
  wsPlus,
  RE.rep true clsDigit 1 (some 2), RE.cls (fun c => c = ':'),
  RE.rep true clsDigit 2 (some 2)]

/-- `([А-Яа-я\w\s]+?)`: the lazy operator-name group. -/
def opNameGrp : RE := RE.grp (RE.rep false clsOpName 1 (none))

/-- `(?:\s|$|\.)` -/
def termWsEndDot : RE := RE.alt (RE.cls clsWs) (RE.alt RE.eos (RE.cls (fun c => c = '.')))

/-- `(?:\s|$)` -/
def termWsEnd : RE := RE.alt (RE.cls clsWs) RE.eos

/-- The `operator_patterns` list local to `EmailParser._extract_operator`
(src/parser.py lines 114-127), in source order. -/
def operatorPatterns : List RE := [
  reCat [reLit ("оператор".data), wsPlus, opNameGrp,
    RE.alt (reCat [wsPlus, reLit ("сообщил".data)]) RE.eos],
  reCat [reLit ("оператора".data), wsPlus, opNameGrp, termWsEndDot],
  reCat [reLit ("стороне оператора".data), wsPlus, opNameGrp, termWsEndDot],
  reCat [reLit ("платформе".data), wsPlus,
    RE.grp (reCat [reLit ("Devino".data), wsPlus, reLit ("Telecom".data)])],
  reCat [reLit ("платформы".data), wsPlus, RE.grp (reLit ("DEVINO".data))],
  reCat [reLit ("работы на стороне оператора".data), wsPlus, opNameGrp, termWsEnd],
  reCat [reLit ("работы на платформе".data), wsPlus, opNameGrp, termWsEnd]]

/-- `known_operators` (src/parser.py lines 143-146). -/
def knownOperators : List (List Char) :=
  ["Билайн".data, "МТС".data, "Мегафон".data, "Теле2".data, "Yota".data,
   "Мотив".data, "Devino Telecom".data]

/-- Keyword fallback of `_extract_operator` (lines 148-152): first known
operator occurring (case-insensitively) in the text. -/
def operatorFallback (text : List Char) : Option (List Char) :=
  let tl := pyLowerList text
  knownOperators.find? (fun op => containsSub (pyLowerList op) tl)

/-- Pattern loop of `_extract_operator` (lines 129-140): first pattern
whose match survives the `[^\w\s]` clean-up wins; a match that cleans to
the empty string falls through to the next pattern. -/
def extract_operator_go (text : List Char) : List RE → Option (List Char)
  | [] => operatorFallback text
  | p :: ps =>
    match reSearch p text with
    | some g =>
      let op := pyStrip g
      let op := pyStrip (op.filter (fun c => clsWord c || pyIsSpace c))
      if op = [] then extract_operator_go text ps
      else if containsSub ("devino".data) (pyLowerList op) then some ("Devino Telecom".data)
      else some op
    | none => extract_operator_go text ps

/-- `EmailParser._extract_operator` (src/parser.py lines 110-158). -/
def extract_operator (text : List Char) : Option (List Char) :=
  extract_operator_go text operatorPatterns

/-- Shared loop shape of `_extract_start_time` / `_extract_end_time` and
the specific-pattern scan of `_extract_work_type`: first pattern whose
search succeeds returns its stripped group. -/
def first_group_match (text : List Char) : List RE → Option (List Char)
  | [] => none
  | p :: ps =>
    match reSearch p text with
    | some g => some (pyStrip g)
    | none => first_group_match text ps

/-- `self.patterns['start_time']` (src/parser.py lines 29-33). -/
def startTimePatterns : List RE := [
  reCat [reLit ("начало работ".data), colonWsStar, starQ, starQ, wsStar, RE.grp dateRe],
  reCat [reLit ("начало".data), colonWsStar, starQ, starQ, wsStar, RE.grp dateRe],
  reCat [reLit ("с".data), wsStar, RE.grp dateRe]]

/-- `self.patterns['end_time']` (src/parser.py lines 36-40). -/
def endTimePatterns : List RE := [
  reCat [reLit ("окончание работ".data), colonWsStar, starQ, starQ, wsStar, RE.grp dateRe],
  reCat [reLit ("окончание".data), colonWsStar, starQ, starQ, wsStar, RE.grp dateRe],
  reCat [reLit ("по".data), wsStar, RE.grp dateRe]]

/-- `EmailParser._extract_start_time` (src/parser.py lines 160-174). -/
def extract_start_time (text : List Char) : Option (List Char) :=
  first_group_match text startTimePatterns

/-- `EmailParser._extract_end_time` (src/parser.py lines 176-190). -/
def extract_end_time (text : List Char) : Option (List Char) :=
  first_group_match text endTimePatterns

/-- Removal of a leading reply marker, `re.sub` of the anchored pattern
matching optional whitespace, `Re`/`re`/`RE`/`rE`, a colon, then optional
whitespace (src/parser.py line 200); an unmatched subject is returned
unchanged. -/
def stripReplyTag (s : List Char) : List Char :=
  let s1 := s.dropWhile pyIsSpace
  match s1 with
  | r :: e :: colon :: rest =>
    if pyLower r = 'r' && pyLower e = 'e' && colon = ':' then rest.dropWhile pyIsSpace
    else s
  | _ => s

/-- The cleaned subject of `_extract_work_type` (lines 197-201):
strip, remove the reply marker, strip again. -/
def cleanSubject (subj : List Char) : List Char :=
  pyStrip (stripReplyTag (pyStrip subj))

/-- `work_indicators` (src/parser.py line 204). -/
def workIndicators : List (List Char) :=
  ["работы".data, "работ".data, "обслуживание".data, "техническ".data]

/-- Does the lowercased cleaned subject contain a work indicator
(line 205)? -/
def indicatorsHit (cs : List Char) : Bool :=
  workIndicators.any (fun ind => containsSub ind (pyLowerList cs))

/-- `specific_patterns` of `_extract_work_type` (lines 210-216). -/
def workTypeSpecific : List RE := [
  RE.grp (reCat [reLit ("внеплановые".data), wsPlus, reLit ("работы".data), notDotStar]),
  RE.grp (reCat [reLit ("плановые".data), wsPlus, reLit ("работы".data), notDotStar]),
  RE.grp (reCat [reLit ("аварийные".data), wsPlus, reLit ("работы".data), notDotStar]),
  RE.grp (reCat [reLit ("профилактические".data), wsPlus, reLit ("работы".data), notDotStar]),
  RE.grp (reCat [reLit ("технические".data), wsPlus, reLit ("работы".data), notDotStar])]

/-- Keyword chain of `_extract_work_type` (lines 226-237). -/
def workTypeKeywordScan (text : List Char) : Option (List Char) :=
  let tl := pyLowerList text
  if containsSub ("внеплановые".data) tl then some ("Внеплановые работы".data)
  else if containsSub ("плановые".data) tl then some ("Плановые работы".data)
  else if containsSub ("аварийные".data) tl then some ("Аварийные работы".data)
  else if containsSub ("профилактические".data) tl then some ("Профилактические работы".data)
  else if containsSub ("технических работ".data) tl then some ("Технические работы".data)
  else none

/-- `EmailParser._extract_work_type` (src/parser.py lines 192-243).
`currentSubject` models the `_current_subject` scratch attribute that
`parse_email` sets around the call. -/
def extract_work_type (currentSubject : Option (List Char)) (text : List Char) :
    Option (List Char) :=
  let fromText :=
    match first_group_match text workTypeSpecific with
    | some wt => some wt
    | none => workTypeKeywordScan text
  match currentSubject with
  | some subj =>
    if subj = [] then fromText
    else
      let cs := cleanSubject subj
      if indicatorsHit cs then some cs else fromText
  | none => fromText

/-! ## Description extraction (src/parser.py lines 245-294) -/

/-- `<[^>]+>` : an HTML tag. -/
def htmlTagRe : RE :=
  reCat [RE.cls (fun c => c = '<'), RE.rep true (fun c => !(c = '>')) 1 (none),
    RE.cls (fun c => c = '>')]

/-- `\s+` as a substitution pattern. -/
def wsPlusRe : RE := wsPlus

/-- `.` without `re.DOTALL`: any character but newline. -/
def clsNotNl (c : Char) : Bool := !(c = '\n')

/-- `unwanted_patterns` (src/parser.py lines 255-263), in source order. -/
def unwantedPatterns : List RE := [
  reCat [reLit ("Copyright".data), RE.rep false clsNotNl 0 (none),
    reLit ("rights reserved".data)],
  reLit ("Обратная связь".data),
  reLit ("Отписаться от рассылки".data),
  reLit ("Открыть в браузере".data),
  reLit ("Информационная рассылка".data),
  reCat [RE.cls (fun c => c = '+'), RE.cls (fun c => c = '7'), wsStar,
    RE.cls (fun c => c = '('), digPlus, RE.cls (fun c => c = ')'), wsStar,
    digPlus, RE.cls (fun c => c = '-'), digPlus, RE.cls (fun c => c = '-'), digPlus],
  reCat [reLit ("Бесплатная линия".data), RE.rep false clsNotNl 0 (none),
    reLit ("России".data)]]

/-- The main-content pattern (lines 273-277), with `re.DOTALL` so `.`
matches anything. -/
def mainContentRe : RE :=
  RE.seq
    (RE.grp (RE.seq (reLit ("Уважаемые клиенты".data)) (RE.rep false (fun _ => true) 0 (none))))
    (RE.alt (reLit ("Техническая поддержка".data))
      (RE.alt (reLit ("Copyright".data))
        (RE.alt (reCat [RE.cls (fun c => c = '+'), RE.cls (fun c => c = '7')]) RE.eos)))

/-- Truncation `s[:300] + "..."` applied when longer than 300. -/
def truncate300 (s : List Char) : List Char :=
  if s.length > 300 then s.take 300 ++ ("...".data) else s

/-- `EmailParser._extract_description` (src/parser.py lines 245-294). -/
def extract_description (body : List Char) : List Char :=
  let cleanBody := reSubAll htmlTagRe [] body
  let cleanBody := pyStrip (reSubAll wsPlusRe (" ".data) cleanBody)
  let cleanBody := unwantedPatterns.foldl (fun acc p => reSubAll p [] acc) cleanBody
  let cleanBody := pyStrip (reSubAll wsPlusRe (" ".data) cleanBody)
  match reSearch mainContentRe cleanBody with
  | some mc => truncate300 (pyStrip mc)
  | none =>
    let cb := truncate300 cleanBody
    if cb = [] then "Описание недоступно".data else cb

/-! ## `parse_email` (src/parser.py lines 55-108) -/

/-- The decoded message handed to the parser (the dict built by
`EmailClient.get_email_content`). -/
structure EmailData where
  subject : List Char
  fromAddr : List Char
  dateStr : List Char
  body : List Char
deriving DecidableEq

/-- `full_text = f"{subject}\n{body}"` (line 73). -/
def fullTextOf (e : EmailData) : List Char := e.subject ++ '\n' :: e.body

/-- The maintenance record built by `parse_email` (lines 78-89).  The
`parsed_at` wall-clock field is omitted: it is `datetime.now()` at parse
time and plays no role in any behaviour. -/
structure ParsedData where
  original_subject : List Char
  original_body : List Char
  email_date : List Char
  email_from : List Char
  operator : Option (List Char)
  start_time : Option (List Char)
  end_time : Option (List Char)
  work_type : Option (List Char)
  description : List Char
deriving DecidableEq

/-- `EmailParser.parse_email` (src/parser.py lines 55-108): build the
record, then return it only when at least one of operator, start time,
end time is truthy (lines 96-101). -/
def parse_email (e : EmailData) : Option ParsedData :=
  let full_text := fullTextOf e
  let pd : ParsedData :=
    { original_subject := e.subject
      original_body := e.body
      email_date := e.dateStr
      email_from := e.fromAddr
      operator := extract_operator full_text
      start_time := extract_start_time full_text
      end_time := extract_end_time full_text
      work_type := extract_work_type (some e.subject) full_text
      description := extract_description e.body }
  if pyTruthy pd.operator || pyTruthy pd.start_time || pyTruthy pd.end_time then some pd
  else none

/-! ## Incremental search (src/email_client.py lines 145-237)

Wall-clock time is measured in minutes; a calendar day is 1440 minutes.
The IMAP server is an external collaborator: `serverSearch` below models
its `FROM`/`SINCE` search from the spec. -/

/-- Day index of a timestamp: IMAP `SINCE` criteria carry only a date. -/
def dayOf (t : Nat) : Nat := t / 1440

/-- A message as the mail server stores it.  `date` is the server-side
(internal) date used by the coarse search; `headerDate` is the parsed
`Date:` header that `_get_email_date` would return (`none` models a
header that cannot be fetched or parsed). -/
structure Msg where
  id : Nat
  sender : List Char
  date : Nat
  headerDate : Option Nat
deriving DecidableEq

/-- Modelled from the spec: the server-side search
`(FROM "sender" SINCE since_date)` is a coarse, day-resolution filter —
it returns the ids of messages from the sender whose date falls on
`sinceDay` or later (spec 4.1: "server-side filter, coarse-grained (day
resolution, not sub-day)"). -/
def serverSearch (mbox : List Msg) (sender : List Char) (sinceDay : Nat) : List Nat :=
  (mbox.filter (fun m => m.sender = sender && sinceDay ≤ dayOf m.date)).map (fun m => m.id)

/-- `EmailClient._get_email_date` (src/email_client.py lines 201-237):
fetch the `Date:` header of one message and parse it, `none` on any
failure; the timezone is stripped for a naive comparison (modelled by
`headerDate` already being naive). -/
def get_email_date (mbox : List Msg) (emailId : Nat) : Option Nat :=
  (mbox.find? (fun m => m.id = emailId)).bind (fun m => m.headerDate)

/-- `EmailClient.search_new_emails_from_sender` (src/email_client.py
lines 145-199).  `cp` is the loaded checkpoint (`None` on first run).
First run: coarse search since `now - 24h`, accepted unfiltered
(lines 159-162, 193-195).  Checkpoint present: coarse search since the
checkpoint's day, then keep only ids whose header date parses and is
strictly later than the checkpoint (lines 163-192). -/
def search_new_emails_from_sender (mbox : List Msg) (sender : List Char) (now : Nat)
    (cp : Option Nat) : List Nat :=
  match cp with
  | none => serverSearch mbox sender (dayOf (now - 1440))
  | some lastCheck =>
    let allIds := serverSearch mbox sender (dayOf lastCheck)
    allIds.filter (fun i =>
      match get_email_date mbox i with
      | some d => decide (lastCheck < d)
      | none => false)

/-- The first-run result as the claim words it ("exactly the set of
sender-matching messages dated within the last 24 hours"): a sub-day
filter the day-granular search cannot perform. -/
def firstRunClaimed (mbox : List Msg) (sender : List Char) (now : Nat) : List Nat :=
  (mbox.filter (fun m => m.sender = sender && now - 1440 ≤ m.date)).map (fun m => m.id)

/-! ## The retry loop of `get_new_emails_from_sender`
(src/email_client.py lines 396-463)

One attempt of the `for attempt in range(retry_count)` body is modelled
by an oracle `att : Nat → AttemptOutcome` giving, per attempt index,
what the transport does: `_ensure_connection` fails, the search finds
nothing, the search finds and fetches messages, or an exception with a
given description is raised inside the `try` block. -/

inductive AttemptOutcome where
  | connFail
  | empty
  | found (emails : List EmailData)
  | raise (msg : List Char)

/-- The connection-error signature list of line 445. -/
def connectionErrSigs : List (List Char) :=
  ["broken pipe".data, "connection".data, "socket".data, "timeout".data]

/-- Line 445: an exception is treated as a connection (transient) error
exactly when its lowercased description contains one of the signatures. -/
def isTransientError (msg : List Char) : Bool :=
  connectionErrSigs.any (fun sig => containsSub sig (pyLowerList msg))

/-- Observable events accumulated across attempts. -/
structure RunAcc where
  attempts : Nat
  sleeps : List Nat
  disconnects : Nat
deriving DecidableEq

/-- The observable outcome of a whole `get_new_emails_from_sender` call:
the returned list, the checkpoint file afterwards, the attempts started,
the `time.sleep` durations performed, the `_disconnect_internal` calls,
and the exception escaping to the caller (the `except Exception`
handler at line 440 catches every exception, so no path sets it). -/
structure RunResult where
  emails : List EmailData
  cp : Option Nat
  attempts : Nat
  sleeps : List Nat
  disconnects : Nat
  escaped : Option (List Char)
deriving DecidableEq

/-- A return that does not touch the checkpoint (lines 461-463, the
post-loop `return []`, and the early returns that do not save). -/
def doneResult (acc : RunAcc) (cp : Option Nat) (emails : List EmailData) : RunResult :=
  ⟨emails, cp, acc.attempts, acc.sleeps, acc.disconnects, none⟩

/-- The retry loop (lines 410-463).  `i` is the `attempt` variable,
`fuel` the attempts remaining (`retryCount - i` when entered through
`get_new_emails_from_sender`), `now` the wall clock used by
`save_last_check_time()` (line 98: `check_time = datetime.now()`).
On a completed fetch with `upd` set, the checkpoint becomes `some now`
(lines 420-423 for zero results, lines 434-438 otherwise).  A raised
error is retried after disconnecting and sleeping 5 seconds when its
description matches a connection signature and attempts remain
(lines 444-455); any other error breaks out at once (lines 456-459). -/
def fetchGo (att : Nat → AttemptOutcome) (upd : Bool) (n now : Nat) (cp : Option Nat) :
    Nat → Nat → RunAcc → RunResult
  | _, 0, acc => doneResult acc cp []
  | i, fuel + 1, acc =>
    let acc1 : RunAcc := ⟨acc.attempts + 1, acc.sleeps, acc.disconnects⟩
    match att i with
    | .connFail => fetchGo att upd n now cp (i + 1) fuel acc1
    | .empty => ⟨[], if upd then some now else cp, acc1.attempts, acc1.sleeps, acc1.disconnects, none⟩
    | .found es => ⟨es, if upd then some now else cp, acc1.attempts, acc1.sleeps, acc1.disconnects, none⟩
    | .raise m =>
      if isTransientError m then
        let acc2 : RunAcc := ⟨acc1.attempts, acc1.sleeps, acc1.disconnects + 1⟩
        if i < n - 1 then
          fetchGo att upd n now cp (i + 1) fuel ⟨acc2.attempts, acc2.sleeps ++ [5], acc2.disconnects⟩
        else doneResult acc2 cp []
      else doneResult acc1 cp []

/-- `EmailClient.get_new_emails_from_sender` (src/email_client.py
lines 396-463); the retry count defaults to 3. -/
def get_new_emails_from_sender (att : Nat → AttemptOutcome) (upd : Bool) (now : Nat)
    (cp : Option Nat) (retryCount : Nat := 3) : RunResult :=
  fetchGo att upd retryCount now cp 0 retryCount ⟨0, [], 0⟩

/-- An attempt outcome on which the body returns normally (search
completed; zero or more messages). -/
def isSuccessOutcome : AttemptOutcome → Prop
  | .empty => True
  | .found _ => True
  | _ => False

/-- An attempt outcome after which the loop moves on to the next
attempt: a failed connection check, or a transient raised error. -/
def isSkippableOutcome : AttemptOutcome → Prop
  | .connFail => True
  | .raise m => isTransientError m = true
  | _ => False

/-- An attempt outcome that is not a completed fetch. -/
def isFailOutcome : AttemptOutcome → Prop
  | .connFail => True
  | .raise _ => True
  | _ => False

/-! ## Body extraction and decoding (src/email_client.py lines 357-394) -/

/-- Is `b` a UTF-8 continuation byte? -/
def isContByte (b : Nat) : Bool := 0x80 ≤ b && b ≤ 0xBF

/-- Strict UTF-8 decoding (`bytes.decode('utf-8')`): rejects overlong
forms, surrogates, values beyond U+10FFFF, and truncated sequences. -/
def utf8Decode? : List Nat → Option (List Char)
  | [] => some []
  | b :: bs =>
    if b ≤ 0x7F then (utf8Decode? bs).map (fun cs => Char.ofNat b :: cs)
    else if 0xC2 ≤ b && b ≤ 0xDF then
      match bs with
      | b1 :: rest =>
        if isContByte b1 then
          (utf8Decode? rest).map (fun cs => Char.ofNat ((b - 0xC0) * 64 + (b1 - 0x80)) :: cs)
        else none
      | [] => none
    else if 0xE0 ≤ b && b ≤ 0xEF then
      match bs with
      | b1 :: b2 :: rest =>
        let lo1 := if b = 0xE0 then 0xA0 else 0x80
        let hi1 := if b = 0xED then 0x9F else 0xBF
        if lo1 ≤ b1 && b1 ≤ hi1 && isContByte b2 then
          (utf8Decode? rest).map (fun cs =>
            Char.ofNat ((b - 0xE0) * 4096 + (b1 - 0x80) * 64 + (b2 - 0x80)) :: cs)
        else none
      | _ => none
    else if 0xF0 ≤ b && b ≤ 0xF4 then
      match bs with
      | b1 :: b2 :: b3 :: rest =>
        let lo1 := if b = 0xF0 then 0x90 else 0x80
        let hi1 := if b = 0xF4 then 0x8F else 0xBF
        if lo1 ≤ b1 && b1 ≤ hi1 && isContByte b2 && isContByte b3 then
          (utf8Decode? rest).map (fun cs =>
            Char.ofNat ((b - 0xF0) * 262144 + (b1 - 0x80) * 4096 + (b2 - 0x80) * 64 + (b3 - 0x80)) :: cs)
        else none
      | _ => none
    else none

/-- The cp1251 high half (bytes 0x80-0xFF) as Unicode code points; byte
0x98 is unassigned in cp1251 and decoding it raises, modelled as 0 here
and rejected in `cp1251Decode?`. -/
def cp1251High : List Nat :=
  [0x0402, 0x0403, 0x201A, 0x0453, 0x201E, 0x2026, 0x2020, 0x2021,
   0x20AC, 0x2030, 0x0409, 0x2039, 0x040A, 0x040C, 0x040B, 0x040F,
   0x0452, 0x2018, 0x2019, 0x201C, 0x201D, 0x2022, 0x2013, 0x2014,
   0, 0x2122, 0x0459, 0x203A, 0x045A, 0x045C, 0x045B, 0x045F,
   0x00A0, 0x040E, 0x045E, 0x0408, 0x00A4, 0x0490, 0x00A6, 0x00A7,
   0x0401, 0x00A9, 0x0404, 0x00AB, 0x00AC, 0x00AD, 0x00AE, 0x0407,
   0x00B0, 0x00B1, 0x0406, 0x0456, 0x0491, 0x00B5, 0x00B6, 0x00B7,
   0x0451, 0x2116, 0x0454, 0x00BB, 0x0458, 0x0405, 0x0455, 0x0457,
   0x0410, 0x0411, 0x0412, 0x0413, 0x0414, 0x0415, 0x0416, 0x0417,
   0x0418, 0x0419, 0x041A, 0x041B, 0x041C, 0x041D, 0x041E, 0x041F,
   0x0420, 0x0421, 0x0422, 0x0423, 0x0424, 0x0425, 0x0426, 0x0427,
   0x0428, 0x0429, 0x042A, 0x042B, 0x042C, 0x042D, 0x042E, 0x042F,
   0x0430, 0x0431, 0x0432, 0x0433, 0x0434, 0x0435, 0x0436, 0x0437,
   0x0438, 0x0439, 0x043A, 0x043B, 0x043C, 0x043D, 0x043E, 0x043F,
   0x0440, 0x0441, 0x0442, 0x0443, 0x0444, 0x0445, 0x0446, 0x0447,
   0x0448, 0x0449, 0x044A, 0x044B, 0x044C, 0x044D, 0x044E, 0x044F]

/-- Decode one cp1251 byte; `none` for the unassigned byte 0x98. -/
def cp1251Byte? (b : Nat) : Option Char :=
  if b ≤ 0x7F then some (Char.ofNat b)
  else if b = 0x98 then none
  else (cp1251High.get? (b - 0x80)).map Char.ofNat

/-- `bytes.decode('cp1251')`: fails only on the unassigned byte 0x98. -/
def cp1251Decode? : List Nat → Option (List Char)
  | [] => some []
  | b :: bs => (cp1251Byte? b).bind (fun c => (cp1251Decode? bs).map (fun cs => c :: cs))

/-- Worker for `utf8DecodeIgnore`: the fuel is the input length (every
step consumes at least one byte). -/
def utf8IgnoreGo : Nat → List Nat → List Char
  | 0, _ => []
  | _ + 1, [] => []
  | fuel + 1, b :: bs =>
    if b ≤ 0x7F then Char.ofNat b :: utf8IgnoreGo fuel bs
    else if 0xC2 ≤ b && b ≤ 0xDF then
      match bs with
      | b1 :: rest =>
        if isContByte b1 then Char.ofNat ((b - 0xC0) * 64 + (b1 - 0x80)) :: utf8IgnoreGo fuel rest
        else utf8IgnoreGo fuel (b1 :: rest)
      | [] => []
    else if 0xE0 ≤ b && b ≤ 0xEF then
      match bs with
      | b1 :: b2 :: rest =>
        let lo1 := if b = 0xE0 then 0xA0 else 0x80
        let hi1 := if b = 0xED then 0x9F else 0xBF
        if lo1 ≤ b1 && b1 ≤ hi1 && isContByte b2 then
          Char.ofNat ((b - 0xE0) * 4096 + (b1 - 0x80) * 64 + (b2 - 0x80)) :: utf8IgnoreGo fuel rest
        else utf8IgnoreGo fuel (b1 :: b2 :: rest)
      | other => utf8IgnoreGo fuel other
    else if 0xF0 ≤ b && b ≤ 0xF4 then
      match bs with
      | b1 :: b2 :: b3 :: rest =>
        let lo1 := if b = 0xF0 then 0x90 else 0x80
        let hi1 := if b = 0xF4 then 0x8F else 0xBF
        if lo1 ≤ b1 && b1 ≤ hi1 && isContByte b2 && isContByte b3 then
          Char.ofNat ((b - 0xF0) * 262144 + (b1 - 0x80) * 4096 + (b2 - 0x80) * 64 + (b3 - 0x80))
            :: utf8IgnoreGo fuel rest
        else utf8IgnoreGo fuel (b1 :: b2 :: b3 :: rest)
      | other => utf8IgnoreGo fuel other
    else utf8IgnoreGo fuel bs

/-- `bytes.decode('utf-8', errors='ignore')`: like `utf8Decode?` but a
byte that cannot start or continue a valid sequence is dropped and
decoding resumes at the next byte. -/
def utf8DecodeIgnore (bs : List Nat) : List Char := utf8IgnoreGo bs.length bs

/-- Modelled from the spec: `bytes.decode('utf-8', errors='replace')` —
the "UTF-8 with invalid-byte substitution" decode the spec describes:
an invalid byte yields U+FFFD instead of being dropped. -/
def utf8ReplaceGo : Nat → List Nat → List Char
  | 0, _ => []
  | _ + 1, [] => []
  | fuel + 1, b :: bs =>
    if b ≤ 0x7F then Char.ofNat b :: utf8ReplaceGo fuel bs
    else if 0xC2 ≤ b && b ≤ 0xDF then
      match bs with
      | b1 :: rest =>
        if isContByte b1 then Char.ofNat ((b - 0xC0) * 64 + (b1 - 0x80)) :: utf8ReplaceGo fuel rest
        else Char.ofNat 0xFFFD :: utf8ReplaceGo fuel (b1 :: rest)
      | [] => [Char.ofNat 0xFFFD]
    else if 0xE0 ≤ b && b ≤ 0xEF then
      match bs with
      | b1 :: b2 :: rest =>
        let lo1 := if b = 0xE0 then 0xA0 else 0x80
        let hi1 := if b = 0xED then 0x9F else 0xBF
        if lo1 ≤ b1 && b1 ≤ hi1 && isContByte b2 then
          Char.ofNat ((b - 0xE0) * 4096 + (b1 - 0x80) * 64 + (b2 - 0x80)) :: utf8ReplaceGo fuel rest
        else Char.ofNat 0xFFFD :: utf8ReplaceGo fuel (b1 :: b2 :: rest)
      | other => Char.ofNat 0xFFFD :: utf8ReplaceGo fuel other
    else if 0xF0 ≤ b && b ≤ 0xF4 then
      match bs with
      | b1 :: b2 :: b3 :: rest =>
        let lo1 := if b = 0xF0 then 0x90 else 0x80
        let hi1 := if b = 0xF4 then 0x8F else 0xBF
        if lo1 ≤ b1 && b1 ≤ hi1 && isContByte b2 && isContByte b3 then
          Char.ofNat ((b - 0xF0) * 262144 + (b1 - 0x80) * 4096 + (b2 - 0x80) * 64 + (b3 - 0x80))
            :: utf8ReplaceGo fuel rest
        else Char.ofNat 0xFFFD :: utf8ReplaceGo fuel (b1 :: b2 :: b3 :: rest)
      | other => Char.ofNat 0xFFFD :: utf8ReplaceGo fuel other
    else Char.ofNat 0xFFFD :: utf8ReplaceGo fuel bs

/-- Modelled from the spec (see the doc comment above): invalid bytes
substituted by U+FFFD. -/
def utf8DecodeReplace (bs : List Nat) : List Char := utf8ReplaceGo bs.length bs

/-- The decode cascade of `_extract_body` (src/email_client.py
lines 380-388): UTF-8, then cp1251, then UTF-8 with `errors='ignore'`. -/
def decodeBytes (bs : List Nat) : List Char :=
  match utf8Decode? bs with
  | some cs => cs
  | none =>
    match cp1251Decode? bs with
    | some cs => cs
    | none => utf8DecodeIgnore bs

/-- The decode cascade as the spec words it: UTF-8, then cp1251, then
UTF-8 with invalid-byte substitution. -/
def decodeBytesSpec (bs : List Nat) : List Char :=
  match utf8Decode? bs with
  | some cs => cs
  | none =>
    match cp1251Decode? bs with
    | some cs => cs
    | none => utf8DecodeReplace bs

/-- One MIME part as seen while walking a multipart message:
`get_content_type()`, `get("Content-Disposition")` (`none` when the
header is absent — Python then sees the string "None"), and
`get_payload(decode=True)`. -/
structure MimePart where
  contentType : List Char
  contentDisposition : Option (List Char)
  payload : List Nat
deriving DecidableEq

/-- A message for `_extract_body`: single-part with a payload, or
multipart with its walked parts. -/
inductive MimeMessage where
  | single (payload : List Nat)
  | multi (parts : List MimePart)
deriving DecidableEq

/-- `str(part.get("Content-Disposition"))`: `None` prints as "None". -/
def dispString (d : Option (List Char)) : List Char :=
  match d with
  | some s => s
  | none => "None".data

/-- Truthiness of the `body` accumulator (starts as `""`, may hold
`b""`). -/
def truthyBody : Option (List Nat) → Bool
  | none => false
  | some bs => !bs.isEmpty

/-- The plain-text condition of line 369:
`content_type == "text/plain" and "attachment" not in content_disposition`. -/
def isPlainPart (p : MimePart) : Bool :=
  p.contentType = "text/plain".data
    && !containsSub ("attachment".data) (dispString p.contentDisposition)

/-- The HTML part of the condition of line 372:
`content_type == "text/html" and "attachment" not in content_disposition`. -/
def isHtmlPart (p : MimePart) : Bool :=
  p.contentType = "text/html".data
    && !containsSub ("attachment".data) (dispString p.contentDisposition)

/-- The part-selection loop of `_extract_body` (src/email_client.py
lines 362-374): the first `text/plain` non-attachment part wins
immediately (`break`); a `text/html` non-attachment part is taken only
while `body` is still falsy (`not body`, line 372), and the walk
continues. -/
def selectBody : List MimePart → Option (List Nat) → Option (List Nat)
  | [], acc => acc
  | p :: ps, acc =>
    if isPlainPart p then some p.payload
    else if isHtmlPart p && !truthyBody acc then selectBody ps (some p.payload)
    else selectBody ps acc

/-- `EmailClient._extract_body` (src/email_client.py lines 357-394):
select the payload bytes, decode through the cascade, and strip. -/
def extract_body (m : MimeMessage) : List Char :=
  let payload? :=
    match m with
    | .single pl => some pl
    | .multi parts => selectBody parts none
  match payload? with
  | none => []
  | some bs => pyStrip (decodeBytes bs)

/-- Is a part a `text/html` non-attachment with a non-empty payload? -/
def isHtmlNonEmpty (p : MimePart) : Bool :=
  isHtmlPart p && !p.payload.isEmpty

/-! ## The sent-message ledger (src/telegram_bot.py lines 59-169)

Messages are represented by their content hash: `_create_message_hash`
is a 16-hex-character MD5 digest computed by an external library, and
the dedup logic only ever compares these hashes. -/

/-- `TelegramNotifier._save_sent_messages` (src/telegram_bot.py
lines 59-75): persist the ledger, keeping only the last 100 entries
(`self.sent_messages[-100:]`) when it has grown beyond 100. -/
def save_sent_messages (msgs : List (List Char)) : List (List Char) :=
  if msgs.length > 100 then lastN 100 msgs else msgs

/-- The observable outcome of one `send_message` call: the returned
boolean, the ledger afterwards, and whether a network send was
attempted. -/
structure SendOutcome where
  ok : Bool
  ledger : List (List Char)
  performedSend : Bool
deriving DecidableEq

/-- `TelegramNotifier.send_message` (src/telegram_bot.py lines 119-169)
on a message with content hash `h`.  A hash already in the ledger is
suppressed and reported as success (lines 134-137).  Otherwise the send
is attempted (`sendOk` models whether `bot.send_message` succeeds or
raises a `TelegramError`); on success the hash is appended and the
ledger saved (lines 150-151), on failure the ledger is untouched and
`False` returned (lines 156-169). -/
def send_message (sent : List (List Char)) (h : List Char) (sendOk : Bool) : SendOutcome :=
  if h ∈ sent then ⟨true, sent, false⟩
  else if sendOk then ⟨true, save_sent_messages (sent ++ [h]), true⟩
  else ⟨false, sent, true⟩

/-- A sequence of sends that all reach the network successfully. -/
def sendAll (sent : List (List Char)) (hs : List (List Char)) : List (List Char) :=
  hs.foldl (fun acc h => (send_message acc h true).ledger) sent

/-! ## Theorems -/

/-- C1: for checkpoint-present runs, `search_new_emails_from_sender`
returns exactly the coarse-search candidates whose parsed header date is
strictly later than the checkpoint, candidates without a parseable
header date being excluded; concretely, with a checkpoint at T = 2160
and same-day candidates dated T−60, T, T+60 plus one whose header date
cannot be parsed, only the T+60 message (id 3) is kept. -/
theorem C1_exact_boundary_filter :
    (∀ (mbox : List Msg) (sender : List Char) (now lastCheck i : Nat),
      i ∈ search_new_emails_from_sender mbox sender now (some lastCheck) ↔
        i ∈ serverSearch mbox sender (dayOf lastCheck) ∧
          ∃ d, get_email_date mbox i = some d ∧ lastCheck < d)
    ∧ search_new_emails_from_sender
        [⟨1, "s".data, 2100, some 2100⟩, ⟨2, "s".data, 2160, some 2160⟩,
         ⟨3, "s".data, 2220, some 2220⟩, ⟨4, "s".data, 2500, none⟩]
        ("s".data) 9999 (some 2160) = [3] := by
  constructor
  · intro mbox sender now lastCheck i
    simp only [search_new_emails_from_sender, List.mem_filter]
    constructor
    · rintro ⟨hmem, hp⟩
      refine ⟨hmem, ?_⟩
      cases h : get_email_date mbox i with
      | none => rw [h] at hp; simp at hp
      | some d => rw [h] at hp; exact ⟨d, rfl, by simpa using hp⟩
    · rintro ⟨hmem, d, hd, hlt⟩
      refine ⟨hmem, ?_⟩
      rw [hd]
      simpa using hlt
  · decide

/-- C1, instantiated: the membership characterisation at the concrete
boundary mailbox — id 3 (dated T+60) is in the result. -/
theorem C1_exact_boundary_filter_witness :
    3 ∈ search_new_emails_from_sender
        [⟨1, "s".data, 2100, some 2100⟩, ⟨2, "s".data, 2160, some 2160⟩,
         ⟨3, "s".data, 2220, some 2220⟩, ⟨4, "s".data, 2500, none⟩]
        ("s".data) 9999 (some 2160) :=
  (C1_exact_boundary_filter.1 _ _ 9999 2160 3).mpr ⟨by decide, 2220, by decide, by decide⟩

/-- C6, counterexample to the claim as stated: with no checkpoint, a
message 35 hours old (date 1500, now 3600) still falls on the same
calendar day as now − 24h, so the day-granular search returns it and the
code accepts it — the result is not "exactly the messages dated within
the last 24 hours". -/
theorem C6_first_run_counterexample :
    search_new_emails_from_sender [⟨1, "sn".data, 1500, some 1500⟩] ("sn".data) 3600 none = [1]
    ∧ firstRunClaimed [⟨1, "sn".data, 1500, some 1500⟩] ("sn".data) 3600 = []
    ∧ ¬ (search_new_emails_from_sender [⟨1, "sn".data, 1500, some 1500⟩] ("sn".data) 3600 none
          = firstRunClaimed [⟨1, "sn".data, 1500, some 1500⟩] ("sn".data) 3600) := by
  refine ⟨by decide, by decide, by decide⟩

/-- C6, amended: with no checkpoint present, the fetch returns exactly
the sender-matching messages whose date falls on the calendar day of
now − 24h or later — every id the day-granular server search returns,
with no time-of-day refinement. -/
theorem C6_first_run_amended :
    ∀ (mbox : List Msg) (sender : List Char) (now i : Nat),
      i ∈ search_new_emails_from_sender mbox sender now none ↔
        ∃ m ∈ mbox, m.id = i ∧ m.sender = sender ∧ dayOf (now - 1440) ≤ dayOf m.date := by
  intro mbox sender now i
  simp only [search_new_emails_from_sender, serverSearch, List.mem_map, List.mem_filter]
  constructor
  · rintro ⟨m, ⟨hm, hp⟩, hid⟩
    simp only [Bool.and_eq_true, decide_eq_true_eq] at hp
    exact ⟨m, hm, hid, hp.1, hp.2⟩
  · rintro ⟨m, hm, hid, hs, hd⟩
    exact ⟨m, ⟨hm, by simp [hs, hd]⟩, hid⟩

/-- C6, amended, instantiated: the 35-hour-old message is a member of
the first-run result. -/
theorem C6_first_run_amended_witness :
    1 ∈ search_new_emails_from_sender [⟨1, "sn".data, 1500, some 1500⟩] ("sn".data) 3600 none :=
  (C6_first_run_amended [⟨1, "sn".data, 1500, some 1500⟩] ("sn".data) 3600 1).mpr
    ⟨⟨1, "sn".data, 1500, some 1500⟩, by decide, rfl, rfl, by decide⟩

/-- C4: `parse_email` yields a record exactly when at least one of
operator, start time, end time was extracted (truthy); a
description-only message yields no record, and a message yielding only
an operator yields a record with the other two fields absent. -/
theorem C4_extraction_gate :
    (∀ e : EmailData, (parse_email e).isSome =
        (pyTruthy (extract_operator (fullTextOf e)) || pyTruthy (extract_start_time (fullTextOf e))
          || pyTruthy (extract_end_time (fullTextOf e))))
    ∧ parse_email ⟨[], [], [], "Уважаемые клиенты! Просто уведомление.".data⟩ = none
    ∧ (parse_email ⟨[], [], [], "Оператор Мотив сообщил".data⟩).map
        (fun r => (r.operator, r.start_time, r.end_time))
        = some (some ("Мотив".data), none, none) := by
  refine ⟨?_, by decide, by decide⟩
  intro e
  simp only [parse_email]
  split
  · next h => simpa using h
  · next h => simpa using h

/-- C7: whenever the cleaned subject (stripped of a leading reply
marker) contains a work indicator, the extracted work type is that
cleaned subject verbatim, whatever the body text says; concretely, the
subject "Re: Внеплановые работы на платформе X" over a body with no
explicit work-type phrase yields the subject with "Re: " stripped. -/
theorem C7_work_type_subject_preference :
    (∀ (subj text : List Char), indicatorsHit (cleanSubject subj) = true →
      extract_work_type (some subj) text = some (cleanSubject subj))
    ∧ extract_work_type (some ("Re: Внеплановые работы на платформе X".data))
        ("Re: Внеплановые работы на платформе X\nУважаемые клиенты, сервис временно недоступен.".data)
      = some ("Внеплановые работы на платформе X".data) := by
  constructor
  · intro subj text h
    have hne : ¬ subj = [] := by
      intro he
      subst he
      exact absurd h (by decide)
    simp only [extract_work_type, hne, if_false, h, if_true]
  · decide

/-- C7, instantiated over a body that itself names a different work
type: the subject still wins. -/
theorem C7_work_type_subject_preference_witness :
    indicatorsHit (cleanSubject ("Re: Внеплановые работы на платформе X".data)) = true
    ∧ extract_work_type (some ("Re: Внеплановые работы на платформе X".data))
        ("Плановые работы в дата-центре.".data)
      = some (cleanSubject ("Re: Внеплановые работы на платформе X".data)) :=
  ⟨by decide, C7_work_type_subject_preference.1 _ _ (by decide)⟩

/-- C10: a message whose content hash is already in the ledger is
reported as successfully sent while no network send happens and the
ledger is unchanged. -/
theorem C10_duplicate_suppressed :
    ∀ (sent : List (List Char)) (h : List Char) (sendOk : Bool),
      h ∈ sent → send_message sent h sendOk = ⟨true, sent, false⟩ := by
  intro sent h sendOk hmem
  simp [send_message, hmem]

/-- C10, instantiated at a one-entry ledger holding the hash being
re-sent. -/
theorem C10_duplicate_suppressed_witness :
    send_message [("abcd".data)] ("abcd".data) true = ⟨true, [("abcd".data)], false⟩ :=
  C10_duplicate_suppressed _ _ _ (by decide)

/-- Helper: when every remaining attempt raises a transient error, the
loop runs them all, disconnecting each time and sleeping 5 seconds
between attempts, and returns empty without touching the checkpoint. -/
theorem fetchGo_all_transient (att : Nat → AttemptOutcome) (upd : Bool) (n now : Nat)
    (cp : Option Nat) :
    ∀ (fuel i : Nat) (acc : RunAcc), i + fuel = n →
      (∀ j, i ≤ j → j < n → ∃ m, att j = AttemptOutcome.raise m ∧ isTransientError m = true) →
      fetchGo att upd n now cp i fuel acc =
        ⟨[], cp, acc.attempts + fuel, acc.sleeps ++ List.replicate (fuel - 1) 5,
         acc.disconnects + fuel, none⟩ := by
  intro fuel
  induction fuel with
  | zero =>
    intro i acc _ _
    simp [fetchGo, doneResult]
  | succ fuel ih =>
    intro i acc hin h
    obtain ⟨m, hm, htr⟩ := h i (Nat.le_refl i) (by omega)
    have hstep : fetchGo att upd n now cp i (fuel + 1) acc =
        if i < n - 1 then
          fetchGo att upd n now cp (i + 1) fuel
            ⟨acc.attempts + 1, acc.sleeps ++ [5], acc.disconnects + 1⟩
        else doneResult ⟨acc.attempts + 1, acc.sleeps, acc.disconnects + 1⟩ cp [] := by
      rw [fetchGo.eq_def]
      simp only [hm, htr, if_true]
    rcases Nat.eq_zero_or_pos fuel with hf | hf
    · subst hf
      have hlast : ¬ i < n - 1 := by omega
      rw [hstep, if_neg hlast]
      simp [doneResult]
    · have hmid : i < n - 1 := by omega
      have hrec := ih (i + 1) ⟨acc.attempts + 1, acc.sleeps ++ [5], acc.disconnects + 1⟩
        (by omega) (fun j hj1 hj2 => h j (by omega) hj2)
      rw [hstep, if_pos hmid, hrec]
      obtain ⟨f, rfl⟩ : ∃ f, fuel = f + 1 := ⟨fuel - 1, by omega⟩
      simp only [RunResult.mk.injEq, List.append_assoc, List.singleton_append,
        Nat.add_sub_cancel, List.replicate_succ]
      refine ⟨trivial, trivial, by omega, trivial, by omega, trivial⟩

/-- C3: when the transport raises a transient error on every attempt,
`get_new_emails_from_sender` makes exactly the configured number of
attempts (default 3), sleeps 5 seconds between consecutive attempts,
returns the empty list, and lets no exception escape. -/
theorem C3_retry_exhaustion :
    ∀ (att : Nat → AttemptOutcome) (upd : Bool) (now : Nat) (cp : Option Nat) (n : Nat),
      (∀ j, j < n → ∃ m, att j = AttemptOutcome.raise m ∧ isTransientError m = true) →
      get_new_emails_from_sender att upd now cp n =
        ⟨[], cp, n, List.replicate (n - 1) 5, n, none⟩ := by
  intro att upd now cp n h
  have hrun := fetchGo_all_transient att upd n now cp n 0 ⟨0, [], 0⟩ (by omega)
    (fun j _ hj => h j hj)
  simpa [get_new_emails_from_sender] using hrun

/-- C3, instantiated: three attempts all raising "connection lost" give
three attempts, two 5-second sleeps, an empty result, an untouched
checkpoint, and no escaping exception. -/
theorem C3_retry_exhaustion_witness :
    get_new_emails_from_sender (fun _ => AttemptOutcome.raise ("connection lost".data)) true 1000
      (some 5) 3 = ⟨[], some 5, 3, [5, 5], 3, none⟩ := by
  have h := C3_retry_exhaustion (fun _ => AttemptOutcome.raise ("connection lost".data)) true 1000
    (some 5) 3 (fun j _ => ⟨("connection lost".data), rfl, by decide⟩)
  simpa using h

/-- One unfolding step of the retry loop with attempts remaining. -/
theorem fetchGo_succ (att : Nat → AttemptOutcome) (upd : Bool) (n now : Nat) (cp : Option Nat)
    (i fuel : Nat) (acc : RunAcc) :
    fetchGo att upd n now cp i (fuel + 1) acc =
      match att i with
      | .connFail => fetchGo att upd n now cp (i + 1) fuel
          ⟨acc.attempts + 1, acc.sleeps, acc.disconnects⟩
      | .empty => ⟨[], if upd then some now else cp, acc.attempts + 1, acc.sleeps,
          acc.disconnects, none⟩
      | .found es => ⟨es, if upd then some now else cp, acc.attempts + 1, acc.sleeps,
          acc.disconnects, none⟩
      | .raise m =>
        if isTransientError m then
          if i < n - 1 then
            fetchGo att upd n now cp (i + 1) fuel
              ⟨acc.attempts + 1, acc.sleeps ++ [5], acc.disconnects + 1⟩
          else doneResult ⟨acc.attempts + 1, acc.sleeps, acc.disconnects + 1⟩ cp []
        else doneResult ⟨acc.attempts + 1, acc.sleeps, acc.disconnects⟩ cp [] := rfl

/-- C5: an error raised inside an attempt is classified transient
exactly when its lowercased description contains one of the signatures
"broken pipe", "connection", "socket", "timeout"; a transient error
disconnects, sleeps 5 seconds, and retries while attempts remain; a
terminal (non-matching) error ends the loop at once with no further
attempt, no disconnect and no sleep; a transient error on the final
attempt disconnects but does not sleep or retry. -/
theorem C5_error_classification :
    (∀ m : List Char, isTransientError m = true ↔
        (containsSub ("broken pipe".data) (pyLowerList m) = true ∨
         containsSub ("connection".data) (pyLowerList m) = true ∨
         containsSub ("socket".data) (pyLowerList m) = true ∨
         containsSub ("timeout".data) (pyLowerList m) = true))
    ∧ (∀ (att : Nat → AttemptOutcome) (upd : Bool) (n now : Nat) (cp : Option Nat)
        (i fuel : Nat) (acc : RunAcc) (m : List Char),
        att i = AttemptOutcome.raise m → isTransientError m = false →
        fetchGo att upd n now cp i (fuel + 1) acc =
          ⟨[], cp, acc.attempts + 1, acc.sleeps, acc.disconnects, none⟩)
    ∧ (∀ (att : Nat → AttemptOutcome) (upd : Bool) (n now : Nat) (cp : Option Nat)
        (i fuel : Nat) (acc : RunAcc) (m : List Char),
        att i = AttemptOutcome.raise m → isTransientError m = true → i < n - 1 →
        fetchGo att upd n now cp i (fuel + 1) acc =
          fetchGo att upd n now cp (i + 1) fuel
            ⟨acc.attempts + 1, acc.sleeps ++ [5], acc.disconnects + 1⟩)
    ∧ (∀ (att : Nat → AttemptOutcome) (upd : Bool) (n now : Nat) (cp : Option Nat)
        (i fuel : Nat) (acc : RunAcc) (m : List Char),
        att i = AttemptOutcome.raise m → isTransientError m = true → ¬ i < n - 1 →
        fetchGo att upd n now cp i (fuel + 1) acc =
          ⟨[], cp, acc.attempts + 1, acc.sleeps, acc.disconnects + 1, none⟩) := by
  refine ⟨?_, ?_, ?_, ?_⟩
  · intro m
    simp [isTransientError, connectionErrSigs]
  · intro att upd n now cp i fuel acc m hm htr
    rw [fetchGo_succ, hm]
    simp [htr, doneResult]
  · intro att upd n now cp i fuel acc m hm htr hmid
    rw [fetchGo_succ, hm]
    simp [htr, hmid]
  · intro att upd n now cp i fuel acc m hm htr hlast
    rw [fetchGo_succ, hm]
    simp [htr, hlast, doneResult]

/-- C5, instantiated: a "value error" attempt stops the loop after one
attempt without sleeping or disconnecting; a "timeout" attempt with
attempts remaining disconnects once, sleeps 5 seconds, and continues
with the next attempt; "broken pipe during read" classifies transient. -/
theorem C5_error_classification_witness :
    fetchGo (fun _ => AttemptOutcome.raise ("value error".data)) true 3 1000 (some 7) 0 3 ⟨0, [], 0⟩
      = ⟨[], some 7, 1, [], 0, none⟩
    ∧ fetchGo (fun _ => AttemptOutcome.raise ("timeout".data)) true 3 1000 (some 7) 0 3 ⟨0, [], 0⟩
      = fetchGo (fun _ => AttemptOutcome.raise ("timeout".data)) true 3 1000 (some 7) 1 2 ⟨1, [5], 1⟩
    ∧ isTransientError ("broken pipe during read".data) = true := by
  refine ⟨?_, ?_, ?_⟩
  · have h := C5_error_classification.2.1 (fun _ => AttemptOutcome.raise ("value error".data))
      true 3 1000 (some 7) 0 2 ⟨0, [], 0⟩ ("value error".data) rfl (by decide)
    simpa using h
  · have h := C5_error_classification.2.2.1 (fun _ => AttemptOutcome.raise ("timeout".data))
      true 3 1000 (some 7) 0 2 ⟨0, [], 0⟩ ("timeout".data) rfl (by decide) (by omega)
    simpa using h
  · exact (C5_error_classification.1 ("broken pipe during read".data)).mpr (Or.inl (by decide))

/-- Helper: a run in which every attempt fails (connection check fails
or an exception is raised) leaves the checkpoint file untouched. -/
theorem fetchGo_cp_of_fail (att : Nat → AttemptOutcome) (upd : Bool) (n now : Nat)
    (cp : Option Nat) (h : ∀ j, j < n → isFailOutcome (att j)) :
    ∀ (fuel i : Nat) (acc : RunAcc), i + fuel = n →
      (fetchGo att upd n now cp i fuel acc).cp = cp := by
  intro fuel
  induction fuel with
  | zero => intro i acc _; simp [fetchGo, doneResult]
  | succ fuel ih =>
    intro i acc hin
    rw [fetchGo_succ]
    cases hatt : att i with
    | connFail => exact ih (i + 1) _ (by omega)
    | empty =>
      have hfail := h i (by omega)
      rw [hatt] at hfail
      simp [isFailOutcome] at hfail
    | found es =>
      have hfail := h i (by omega)
      rw [hatt] at hfail
      simp [isFailOutcome] at hfail
    | raise m =>
      by_cases htr : isTransientError m = true
      · by_cases hmid : i < n - 1
        · simp only [htr, if_true, if_pos hmid]
          exact ih (i + 1) _ (by omega)
        · simp [htr, hmid, doneResult]
      · simp [htr, doneResult]

/-- Helper: whatever the transport does, the checkpoint after a run is
either the one loaded before it or the current time. -/
theorem fetchGo_cp_cases (att : Nat → AttemptOutcome) (upd : Bool) (n now : Nat)
    (cp : Option Nat) :
    ∀ (fuel i : Nat) (acc : RunAcc),
      (fetchGo att upd n now cp i fuel acc).cp = cp ∨
        (fetchGo att upd n now cp i fuel acc).cp = some now := by
  intro fuel
  induction fuel with
  | zero => intro i acc; left; simp [fetchGo, doneResult]
  | succ fuel ih =>
    intro i acc
    rw [fetchGo_succ]
    cases att i with
    | connFail => exact ih (i + 1) _
    | empty =>
      cases upd
      · left; simp
      · right; simp
    | found es =>
      cases upd
      · left; simp
      · right; simp
    | raise m =>
      by_cases htr : isTransientError m = true
      · by_cases hmid : i < n - 1
        · simp only [htr, if_true, if_pos hmid]
          exact ih (i + 1) _
        · left; simp [htr, hmid, doneResult]
      · left; simp [htr, doneResult]

/-- Helper: a run that reaches a completing attempt (every earlier
attempt either failed the connection check or raised a transient error)
stores the current time as the checkpoint when updating is requested. -/
theorem fetchGo_cp_of_success (att : Nat → AttemptOutcome) (n now : Nat) (cp : Option Nat) :
    ∀ (fuel i j : Nat) (acc : RunAcc), i + fuel = n → i ≤ j → j < n →
      isSuccessOutcome (att j) → (∀ k, i ≤ k → k < j → isSkippableOutcome (att k)) →
      (fetchGo att true n now cp i fuel acc).cp = some now := by
  intro fuel
  induction fuel with
  | zero => intro i j acc h1 h2 h3 _ _; omega
  | succ fuel ih =>
    intro i j acc hin hij hjn hsucc hskip
    rw [fetchGo_succ]
    rcases Nat.lt_or_ge i j with hlt | hge
    · have hsk := hskip i (Nat.le_refl i) hlt
      cases hatt : att i with
      | connFail =>
        exact ih (i + 1) j _ (by omega) (by omega) hjn hsucc
          (fun k hk1 hk2 => hskip k (by omega) hk2)
      | empty =>
        rw [hatt] at hsk
        simp [isSkippableOutcome] at hsk
      | found es =>
        rw [hatt] at hsk
        simp [isSkippableOutcome] at hsk
      | raise m =>
        rw [hatt] at hsk
        have htr : isTransientError m = true := hsk
        have hmid : i < n - 1 := by omega
        simp only [htr, if_true, if_pos hmid]
        exact ih (i + 1) j _ (by omega) (by omega) hjn hsucc
          (fun k hk1 hk2 => hskip k (by omega) hk2)
    · have hi : i = j := by omega
      subst hi
      cases hatt : att i with
      | empty => simp
      | found es => simp
      | connFail =>
        rw [hatt] at hsucc
        simp [isSuccessOutcome] at hsucc
      | raise m =>
        rw [hatt] at hsucc
        simp [isSuccessOutcome] at hsucc

/-- C2: a `get_new_emails_from_sender` run with state updating enabled
that completes its fetch (even with zero messages) stores the current
time as the checkpoint — never a message date; a run in which every
attempt fails leaves the checkpoint file unchanged; and since a stored
checkpoint is never later than the current time, the checkpoint value
never decreases across a cycle. -/
theorem C2_checkpoint_advance :
    (∀ (att : Nat → AttemptOutcome) (n now : Nat) (cp : Option Nat) (j : Nat),
        j < n → isSuccessOutcome (att j) → (∀ k, k < j → isSkippableOutcome (att k)) →
        (get_new_emails_from_sender att true now cp n).cp = some now)
    ∧ (∀ (att : Nat → AttemptOutcome) (upd : Bool) (now : Nat) (cp : Option Nat) (n : Nat),
        (∀ j, j < n → isFailOutcome (att j)) →
        (get_new_emails_from_sender att upd now cp n).cp = cp)
    ∧ (∀ (att : Nat → AttemptOutcome) (upd : Bool) (now t0 t1 : Nat) (cp : Option Nat) (n : Nat),
        cp = some t0 → t0 ≤ now →
        (get_new_emails_from_sender att upd now cp n).cp = some t1 → t0 ≤ t1) := by
  refine ⟨?_, ?_, ?_⟩
  · intro att n now cp j hj hsucc hskip
    exact fetchGo_cp_of_success att n now cp n 0 j ⟨0, [], 0⟩ (by omega) (by omega) hj hsucc
      (fun k _ hk => hskip k hk)
  · intro att upd now cp n h
    exact fetchGo_cp_of_fail att upd n now cp h n 0 ⟨0, [], 0⟩ (by omega)
  · intro att upd now t0 t1 cp n hcp hle hres
    simp only [get_new_emails_from_sender] at hres
    rcases fetchGo_cp_cases att upd n now cp n 0 ⟨0, [], 0⟩ with h | h
    · rw [h, hcp] at hres
      injection hres with he
      omega
    · rw [h] at hres
      injection hres with he
      omega

/-- C2, instantiated: a zero-result cycle at time 50 over a checkpoint
of 40 stores 50; a run whose connection never comes up keeps 40; and
40 ≤ 50 follows from the monotonicity conjunct. -/
theorem C2_checkpoint_advance_witness :
    (get_new_emails_from_sender (fun _ => AttemptOutcome.empty) true 50 (some 40) 1).cp = some 50
    ∧ (get_new_emails_from_sender (fun _ => AttemptOutcome.connFail) true 50 (some 40) 3).cp
        = some 40
    ∧ 40 ≤ 50 := by
  refine ⟨?_, ?_, ?_⟩
  · exact C2_checkpoint_advance.1 _ 1 50 (some 40) 0 (by omega) trivial
      (fun k hk => absurd hk (by omega))
  · exact C2_checkpoint_advance.2.1 _ true 50 (some 40) 3 (fun j _ => trivial)
  · exact C2_checkpoint_advance.2.2 (fun _ => AttemptOutcome.empty) true 50 40 50 (some 40) 1 rfl
      (by omega) (by decide)

/-- Helper: whatever the accumulator holds, the first plain-text
non-attachment part of the walk decides the body. -/
theorem selectBody_plain :
    ∀ (parts : List MimePart) (acc : Option (List Nat)) (p : MimePart),
      parts.find? isPlainPart = some p → selectBody parts acc = some p.payload := by
  intro parts
  induction parts with
  | nil => intro acc p h; simp at h
  | cons q ps ih =>
    intro acc p h
    cases hq : isPlainPart q with
    | true =>
      rw [List.find?_cons_of_pos _ hq] at h
      injection h with he
      subst he
      simp [selectBody, hq]
    | false =>
      rw [List.find?_cons_of_neg _ (by simp [hq])] at h
      simp only [selectBody, hq, Bool.false_eq_true, if_false]
      by_cases hh : (isHtmlPart q && !truthyBody acc) = true
      · rw [if_pos hh]; exact ih _ p h
      · rw [if_neg hh]; exact ih _ p h

/-- Helper: once a non-empty body is held and no plain-text part
remains, the walk keeps it. -/
theorem selectBody_keep :
    ∀ (parts : List MimePart) (bs : List Nat), (∀ r ∈ parts, isPlainPart r = false) →
      bs ≠ [] → selectBody parts (some bs) = some bs := by
  intro parts
  induction parts with
  | nil => intro bs _ _; simp [selectBody]
  | cons q ps ih =>
    intro bs h hbs
    have hq := h q (List.mem_cons_self q ps)
    obtain ⟨b, t, rfl⟩ := List.exists_cons_of_ne_nil hbs
    simp only [selectBody, hq, Bool.false_eq_true, if_false, truthyBody, List.isEmpty_cons,
      Bool.not_false, Bool.not_true, Bool.and_false]
    exact ih (b :: t) (fun r hr => h r (List.mem_cons_of_mem _ hr)) hbs

/-- Helper: with no plain-text part anywhere and a falsy accumulator,
the first HTML non-attachment part with a non-empty payload decides the
body. -/
theorem selectBody_html :
    ∀ (parts : List MimePart) (acc : Option (List Nat)) (q : MimePart),
      (∀ r ∈ parts, isPlainPart r = false) → truthyBody acc = false →
      parts.find? isHtmlNonEmpty = some q → selectBody parts acc = some q.payload := by
  intro parts
  induction parts with
  | nil => intro acc q _ _ h; simp at h
  | cons p ps ih =>
    intro acc q hnp hacc h
    have hp := hnp p (List.mem_cons_self p ps)
    cases hq : isHtmlNonEmpty p with
    | true =>
      rw [List.find?_cons_of_pos _ hq] at h
      injection h with he
      subst he
      rw [isHtmlNonEmpty, Bool.and_eq_true] at hq
      have hpe : p.payload ≠ [] := by
        intro he2
        rw [he2] at hq
        simp at hq
      have hcond : (isHtmlPart p && !truthyBody acc) = true := by simp [hq.1, hacc]
      simp only [selectBody, hp, Bool.false_eq_true, if_false, if_pos hcond]
      exact selectBody_keep ps p.payload (fun r hr => hnp r (List.mem_cons_of_mem _ hr)) hpe
    | false =>
      rw [List.find?_cons_of_neg _ (by simp [hq])] at h
      simp only [selectBody, hp, Bool.false_eq_true, if_false]
      by_cases hh : isHtmlPart p = true
      · have hpe : p.payload.isEmpty = true := by
          rw [isHtmlNonEmpty, hh] at hq
          simpa using hq
        have hcond : (isHtmlPart p && !truthyBody acc) = true := by simp [hh, hacc]
        rw [if_pos hcond]
        have hacc2 : truthyBody (some p.payload) = false := by simp [truthyBody, hpe]
        exact ih _ q (fun r hr => hnp r (List.mem_cons_of_mem _ hr)) hacc2 h
      · have hh2 : isHtmlPart p = false := by simpa using hh
        have hcond : ¬ ((isHtmlPart p && !truthyBody acc) = true) := by simp [hh2]
        rw [if_neg hcond]
        exact ih _ q (fun r hr => hnp r (List.mem_cons_of_mem _ hr)) hacc h

/-- C8, amended: body decoding tries strict UTF-8 first, then cp1251,
then UTF-8 with invalid bytes dropped (`errors='ignore'`) — not
substituted — returning the first decoding that succeeds; for multipart
messages the bytes decoded are those of the first plain-text
non-attachment part, and an HTML non-attachment part is used only when
no plain-text part exists. -/
theorem C8_decode_order_amended :
    (∀ (bs : List Nat) (cs : List Char), utf8Decode? bs = some cs → decodeBytes bs = cs)
    ∧ (∀ (bs : List Nat) (cs : List Char), utf8Decode? bs = none → cp1251Decode? bs = some cs →
        decodeBytes bs = cs)
    ∧ (∀ bs : List Nat, utf8Decode? bs = none → cp1251Decode? bs = none →
        decodeBytes bs = utf8DecodeIgnore bs)
    ∧ (∀ (parts : List MimePart) (p : MimePart), parts.find? isPlainPart = some p →
        selectBody parts none = some p.payload
          ∧ extract_body (MimeMessage.multi parts) = pyStrip (decodeBytes p.payload))
    ∧ (∀ (parts : List MimePart) (q : MimePart), (∀ r ∈ parts, isPlainPart r = false) →
        parts.find? isHtmlNonEmpty = some q → selectBody parts none = some q.payload) := by
  refine ⟨?_, ?_, ?_, ?_, ?_⟩
  · intro bs cs h
    simp [decodeBytes, h]
  · intro bs cs h1 h2
    simp [decodeBytes, h1, h2]
  · intro bs h1 h2
    simp [decodeBytes, h1, h2]
  · intro parts p h
    have hsel := selectBody_plain parts none p h
    exact ⟨hsel, by simp [extract_body, hsel]⟩
  · intro parts q hnp h
    exact selectBody_html parts none q hnp rfl h

/-- C8, counterexample to the claim as stated: on the byte 0x98 (invalid
UTF-8 and unassigned in cp1251) the code's final fallback drops the byte
(`errors='ignore'`), yielding an empty body, while the claimed
invalid-byte substitution would yield U+FFFD. -/
theorem C8_decode_order_counterexample :
    extract_body (MimeMessage.single [0x98]) = []
    ∧ decodeBytesSpec [0x98] = [Char.ofNat 0xFFFD]
    ∧ ¬ (decodeBytes [0x98] = decodeBytesSpec [0x98]) := by
  refine ⟨by decide, by decide, by decide⟩

/-- C8, amended, instantiated: a UTF-8 payload decodes as UTF-8, a
cp1251 payload as cp1251, byte 0x98 through the ignore fallback; a
plain part wins even after an HTML part, and with only HTML parts the
first one with a non-empty payload wins. -/
theorem C8_decode_order_witness :
    decodeBytes [0xD0, 0x9C] = ['М']
    ∧ decodeBytes [0xCC] = ['М']
    ∧ decodeBytes [0x98] = utf8DecodeIgnore [0x98]
    ∧ selectBody [⟨"text/html".data, none, [1]⟩, ⟨"text/plain".data, none, [2]⟩] none = some [2]
    ∧ selectBody [⟨"text/html".data, none, []⟩, ⟨"text/html".data, none, [3]⟩] none = some [3] := by
  refine ⟨?_, ?_, ?_, ?_, ?_⟩
  · exact C8_decode_order_amended.1 _ _ (by decide)
  · exact C8_decode_order_amended.2.1 _ _ (by decide) (by decide)
  · exact C8_decode_order_amended.2.2.1 _ (by decide) (by decide)
  · exact (C8_decode_order_amended.2.2.2.1 _ ⟨"text/plain".data, none, [2]⟩ (by decide)).1
  · exact C8_decode_order_amended.2.2.2.2 _ ⟨"text/html".data, none, [3]⟩ (by decide) (by decide)

/-- Helper: appending one new hash to a 100-capped ledger and saving
gives the 100-cap of the full history plus that hash. -/
theorem save_sent_step (xs : List (List Char)) (h : List Char) :
    save_sent_messages (lastN 100 xs ++ [h]) = lastN 100 (xs ++ [h]) := by
  rcases Nat.lt_or_ge xs.length 100 with hl | hl
  · have h1 : lastN 100 xs = xs := by
      unfold lastN
      rw [Nat.sub_eq_zero_of_le (Nat.le_of_lt hl), List.drop_zero]
    rw [h1]
    unfold save_sent_messages lastN
    rw [List.length_append]
    simp only [List.length_cons, List.length_nil]
    rw [if_neg (by omega)]
    rw [Nat.sub_eq_zero_of_le (by omega), List.drop_zero]
  · have hlen : (lastN 100 xs).length = 100 := by
      unfold lastN
      rw [List.length_drop]
      omega
    unfold save_sent_messages
    rw [List.length_append, hlen]
    simp only [List.length_cons, List.length_nil]
    rw [if_pos (by omega)]
    unfold lastN
    simp only [List.length_append, List.length_drop, List.length_cons, List.length_nil]
    rw [List.drop_append_of_le_length (by rw [List.length_drop]; omega),
      List.drop_append_of_le_length (by omega),
      List.drop_drop]
    have heq : xs.length - 100 + (xs.length - (xs.length - 100) + 1 - 100)
        = xs.length + 1 - 100 := by omega
    rw [heq]

/-- Helper: sending a run of fresh (pairwise-distinct, never-seen)
hashes keeps the ledger equal to the last-100 window of the full send
history. -/
theorem sendAll_ledger :
    ∀ (hs processed : List (List Char)), (processed ++ hs).Nodup →
      sendAll (lastN 100 processed) hs = lastN 100 (processed ++ hs) := by
  intro hs
  induction hs with
  | nil =>
    intro processed _
    simp [sendAll]
  | cons h t ih =>
    intro processed hnd
    have hdis := (List.nodup_append.mp hnd).2.2
    have hnotin : h ∉ processed := fun hmem => hdis hmem (List.mem_cons_self h t)
    have hnotin2 : h ∉ lastN 100 processed := fun hmem => hnotin (List.drop_subset _ _ hmem)
    have hledger : (send_message (lastN 100 processed) h true).ledger
        = lastN 100 (processed ++ [h]) := by
      simp only [send_message, hnotin2, if_false, if_true]
      exact save_sent_step processed h
    simp only [sendAll, List.foldl_cons]
    rw [hledger]
    have hnd2 : ((processed ++ [h]) ++ t).Nodup := by
      rw [List.append_assoc, List.singleton_append]
      exact hnd
    have hrec := ih (processed ++ [h]) hnd2
    simp only [sendAll] at hrec
    rw [hrec, List.append_assoc, List.singleton_append]

/-- C9: a save never leaves more than 100 ledger entries; and after 101
successful sends of pairwise-distinct hashes starting from an empty
ledger, the ledger holds exactly the 100 most recent hashes in send
order, the oldest having been evicted. -/
theorem C9_ledger_cap :
    (∀ msgs : List (List Char), (save_sent_messages msgs).length ≤ 100)
    ∧ (∀ hs : List (List Char), hs.Nodup → hs.length = 101 → sendAll [] hs = hs.tail) := by
  constructor
  · intro msgs
    unfold save_sent_messages
    split
    · next hgt =>
      unfold lastN
      rw [List.length_drop]
      omega
    · next hle => omega
  · intro hs hnd hlen
    have h0 := sendAll_ledger hs [] (by simpa using hnd)
    rw [show lastN 100 ([] : List (List Char)) = [] from rfl, List.nil_append] at h0
    rw [h0]
    unfold lastN
    rw [hlen]
    exact List.drop_one hs

/-- C9, instantiated at 101 distinct hashes (the decimal numerals 0-100):
the resulting ledger is the 100 most recent, in send order. -/
theorem C9_ledger_cap_witness :
    sendAll [] ((List.range 101).map (fun n => (toString n).data))
      = ((List.range 101).map (fun n => (toString n).data)).tail :=
  C9_ledger_cap.2 _ (by decide) (by decide)
